import Mathlib

/-!
# Verification of the azure-spot-finder recommendation and normalization pipeline

Shallow embedding of the repository's core algorithms:

* `api/services/recommendation_service.py` — constraint filtering, multi-factor
  scoring and ranking (`RecommendationService`);
* `api/clients/compute_client.py` and `backend/app/azure_client.py` — the SKU
  normalizer (spot-eligibility rejection rules and field extraction);
* `backend/app/filters.py` — the candidate dedupe/merge step of
  `filter_and_shape_items`.

Modelling conventions:

* Python floats are modelled as rationals (`ℚ`); the claims under study are
  order/threshold facts that do not hinge on binary rounding.
* A Python dict of optional fields becomes a structure with `Option` fields;
  a missing key and a `None` value coincide, exactly as `dict.get` does.
* Python code that can raise (the unguarded division in
  `_calculate_performance_score`) is embedded with an `Option` result where
  `none` models the raised `ZeroDivisionError`, propagated to every caller.
* `list.sort(key=..., reverse=True)` is a stable descending sort; it is
  embedded as `List.mergeSort` with the reflexive total relation
  "left score ≥ right score", which likewise keeps equal-key elements in
  input order.
-/

set_option autoImplicit false

namespace SpotFinder

/-! ## Small string/list helpers (kernel-friendly replacements for Python
string methods: `lower`, `startswith`, `in`, `strip`) -/

/-- Python `s.lower()` (ASCII case folding suffices for all strings involved). -/
def lowerStr (s : String) : String :=
  String.mk (s.data.map Char.toLower)

/-- Python `s.startswith(pat)`. -/
def startsWithStr (s pat : String) : Bool :=
  pat.data.isPrefixOf s.data

/-- Python `pat in s` (substring containment) on char lists. -/
def hasSubList (needle : List Char) : List Char → Bool
  | [] => needle.isEmpty
  | c :: t => needle.isPrefixOf (c :: t) || hasSubList needle t

/-- Python `pat in s` (substring containment). -/
def containsStr (s pat : String) : Bool :=
  hasSubList pat.data s.data

/-- Python `min` over a non-empty list (the sources guard emptiness before calling). -/
def listMin : List ℚ → ℚ
  | [] => 0
  | q :: qs => qs.foldl min q

/-- Python `max` over a non-empty list (the sources guard emptiness before calling). -/
def listMax : List ℚ → ℚ
  | [] => 0
  | q :: qs => qs.foldl max q

/-- `max(0.0, min(1.0, x))` as used by the score normalizers. -/
def clamp01 (q : ℚ) : ℚ := max 0 (min 1 q)

/-! ## Data model of `recommendation_service.py` -/

/-- The `optimize_for` literal of `RecommendationCriteria`. -/
inductive OptimizeFor where
  | cost
  | reliability
  | performance
  | balanced
deriving DecidableEq, Repr, Inhabited

/-- `RecommendationCriteria` dataclass (defaults as in the source). -/
structure RecommendationCriteria where
  max_hourly_cost : Option ℚ := none
  max_eviction_rate : Option String := none
  min_availability_zones : Int := 1
  optimize_for : OptimizeFor := .balanced
  architecture_preference : Option String := none
  price_weight : ℚ := 35/100
  eviction_weight : ℚ := 25/100
  performance_weight : ℚ := 20/100
  availability_weight : ℚ := 10/100
  architecture_weight : ℚ := 10/100
deriving DecidableEq, Repr, Inhabited

/-- A SKU dict as consumed by `RecommendationService`: the keys read via
`sku.get(...)` in the scoring/filtering code. `none` models a missing key or a
`None` value (indistinguishable under `dict.get`). A missing `zones` key and
`zones: []` behave identically in every consuming line (`not sku.get("zones")`,
`sku.get("zones", [])`), so `zones` is a plain list. -/
structure Sku where
  name : String := ""
  price : Option ℚ := none
  eviction_rate : Option String := none
  vcpus : Option ℚ := none
  memory_gb : Option ℚ := none
  zones : List String := []
  architecture : Option String := none
deriving DecidableEq, Repr, Inhabited

/-! ## Sub-score computations (`_calculate_*_score`) -/

/-- `RecommendationService._calculate_price_score`. -/
def _calculate_price_score (sku : Sku) (all_skus : List Sku) : ℚ :=
  match sku.price with
  | none => 1/2
  | some price =>
    let prices := all_skus.filterMap (fun s => s.price)
    if prices = [] then 1/2
    else
      let min_price := listMin prices
      let max_price := listMax prices
      if max_price = min_price then 1
      else clamp01 ((max_price - price) / (max_price - min_price))

/-- `RecommendationService._calculate_eviction_score`. -/
def _calculate_eviction_score (sku : Sku) : ℚ :=
  match sku.eviction_rate with
  | none => 3/10
  | some r =>
    if r = "0-5" then 1
    else if r = "5-10" then 8/10
    else if r = "10-15" then 6/10
    else if r = "15-20" then 4/10
    else if r = "20+" then 2/10
    else 1/10

/-- `vcpus + memory_gb / 4`, the "compute units" used by the performance score. -/
def compute_units (vcpus memory_gb : ℚ) : ℚ := vcpus + memory_gb / 4

/-- The `ratios` loop of `_calculate_performance_score`: price-per-unit for every
pool member with price/vcpus/memory present. `none` models the
`ZeroDivisionError` Python raises when some member has zero compute units. -/
def perf_pool_ratios : List Sku → Option (List ℚ)
  | [] => some []
  | s :: rest =>
    match s.price, s.vcpus, s.memory_gb with
    | some p, some v, some m =>
      let u := compute_units v m
      if u = 0 then none
      else (perf_pool_ratios rest).map (fun rs => p / u :: rs)
    | _, _, _ => perf_pool_ratios rest

/-- `RecommendationService._calculate_performance_score`. The source divides
`price / compute_units` without a zero guard; `none` models the resulting
`ZeroDivisionError`. The `isinstance` checks of the source are vacuous here
because the fields are typed. -/
def _calculate_performance_score (sku : Sku) (all_skus : List Sku) : Option ℚ :=
  match sku.price, sku.vcpus, sku.memory_gb with
  | some price, some vcpus, some memory_gb =>
    let cu := compute_units vcpus memory_gb
    if cu = 0 then none
    else
      let price_per_unit := price / cu
      (perf_pool_ratios all_skus).map (fun rs =>
        if rs = [] then 1/2
        else
          let minR := listMin rs
          let maxR := listMax rs
          if maxR = minR then 1
          else clamp01 ((maxR - price_per_unit) / (maxR - minR)))
  | _, _, _ => some (1/2)

/-- `RecommendationService._calculate_availability_score`. (Python's `max(...)`
raises on an empty pool; that call site is unreachable from
`recommend_top_skus`, which guards `filtered_skus` non-empty, so the fold with
base `0` coincides with the source on every reachable input.) -/
def _calculate_availability_score (sku : Sku) (all_skus : List Sku) : ℚ :=
  let zone_count : ℚ := (sku.zones.length : ℚ)
  let max_zones : Nat := (all_skus.map (fun s => s.zones.length)).foldl max 0
  if max_zones = 0 then 0
  else zone_count / (max_zones : ℚ)

/-- `RecommendationService._calculate_architecture_score`. -/
def _calculate_architecture_score (sku : Sku) (criteria : RecommendationCriteria) : ℚ :=
  match criteria.architecture_preference with
  | none => if sku.architecture = some "Arm64" then 6/10 else 1/2
  | some pref => if sku.architecture = some pref then 1 else 3/10

/-! ## Composite score and reasoning (`_calculate_sku_score`) -/

/-- The five sub-scores recorded in the `breakdown` dict. -/
structure ScoreBreakdown where
  price_score : ℚ
  eviction_score : ℚ
  performance_score : ℚ
  availability_score : ℚ
  architecture_score : ℚ
deriving DecidableEq, Repr, Inhabited

/-- The threshold-qualifying reasoning phrases, in the order the source appends
them to `reasoning_parts` (lines 150–185). -/
def threshold_phrases (b : ScoreBreakdown) (arch : Option String) : List String :=
  (if b.price_score > 7/10 then ["excellent pricing"]
   else if b.price_score > 1/2 then ["good pricing"]
   else [])
  ++ (if b.eviction_score > 8/10 then ["very low eviction risk"]
      else if b.eviction_score > 6/10 then ["low eviction risk"]
      else [])
  ++ (if b.performance_score > 7/10 then ["excellent value"] else [])
  ++ (if b.availability_score > 8/10 then ["high availability"] else [])
  ++ (if b.architecture_score > 8/10 && arch = some "Arm64"
      then ["ARM64 efficiency advantage"] else [])

/-- The `optimize_for` tag the source appends inside the
`criteria.optimize_for` branches (lines 197–205). -/
def opt_tag : OptimizeFor → List String
  | .cost => ["cost-optimized"]
  | .reliability => ["reliability-focused"]
  | .performance => ["performance-optimized"]
  | .balanced => []

/-- `reasoning_parts` as accumulated by `_calculate_sku_score`: the threshold
phrases in source order, then the optimize tag (appended before the `[:3]`
cap is taken). -/
def reasoning_parts (b : ScoreBreakdown) (arch : Option String) (opt : OptimizeFor) :
    List String :=
  threshold_phrases b arch ++ opt_tag opt

/-- The weighted total of the five sub-scores (source lines 188–194), i.e. the
composite score before the `optimize_for` blend. -/
def weighted_total (b : ScoreBreakdown) (c : RecommendationCriteria) : ℚ :=
  b.price_score * c.price_weight
  + b.eviction_score * c.eviction_weight
  + b.performance_score * c.performance_weight
  + b.availability_score * c.availability_weight
  + b.architecture_score * c.architecture_weight

/-- The `optimize_for` secondary blend (source lines 197–205). -/
def apply_optimize (total : ℚ) (b : ScoreBreakdown) : OptimizeFor → ℚ
  | .cost => total * (7/10) + b.price_score * (3/10)
  | .reliability => total * (7/10) + b.eviction_score * (3/10)
  | .performance => total * (7/10) + b.performance_score * (3/10)
  | .balanced => total

/-- Python `round(x, 3)`. (Python rounds half-to-even on binary floats; on the
rational model we use `round`, which differs only at exact `0.0005` ties that
no claim exercises.) -/
def round3 (q : ℚ) : ℚ := ((round (q * 1000) : ℤ) : ℚ) / 1000

/-- The dict returned by `_calculate_sku_score`. -/
structure ScoreResult where
  total_score : ℚ
  breakdown : ScoreBreakdown
  reason : String
deriving DecidableEq, Repr, Inhabited

/-- `RecommendationService._calculate_sku_score`. `none` propagates the
`ZeroDivisionError` of the performance sub-score. -/
def _calculate_sku_score (sku : Sku) (all_skus : List Sku)
    (criteria : RecommendationCriteria) : Option ScoreResult :=
  (_calculate_performance_score sku all_skus).map (fun perf =>
    let b : ScoreBreakdown :=
      { price_score := _calculate_price_score sku all_skus
        eviction_score := _calculate_eviction_score sku
        performance_score := perf
        availability_score := _calculate_availability_score sku all_skus
        architecture_score := _calculate_architecture_score sku criteria }
    let total := apply_optimize (weighted_total b criteria) b criteria.optimize_for
    { total_score := round3 total
      breakdown := b
      reason := "Recommended for "
        ++ String.intercalate ", " ((reasoning_parts b sku.architecture criteria.optimize_for).take 3) })

/-! ## Hard constraints (`_apply_constraints`, `_is_eviction_rate_acceptable`) -/

/-- The `rate_to_number` closure inside `_is_eviction_rate_acceptable`. -/
def rate_to_number (rate : String) : ℚ :=
  if rate = "0-5" then 5/2
  else if rate = "5-10" then 15/2
  else if rate = "10-15" then 25/2
  else if rate = "15-20" then 35/2
  else if rate = "20+" then 25
  else 50

/-- `RecommendationService._is_eviction_rate_acceptable`. -/
def _is_eviction_rate_acceptable (actual_rate max_rate : String) : Bool :=
  decide (rate_to_number actual_rate ≤ rate_to_number max_rate)

/-- The eviction-rate `continue` condition of `_apply_constraints`
(source lines 104–111): the candidate is skipped on eviction grounds exactly
when both the ceiling and the candidate's rate are present and
`_is_eviction_rate_acceptable` fails. -/
def eviction_excludes (sku : Sku) (criteria : RecommendationCriteria) : Bool :=
  match criteria.max_eviction_rate, sku.eviction_rate with
  | some max_rate, some eviction_rate => ! _is_eviction_rate_acceptable eviction_rate max_rate
  | _, _ => false

/-- The cost `continue` condition of `_apply_constraints` (source lines 98–102). -/
def cost_excludes (sku : Sku) (criteria : RecommendationCriteria) : Bool :=
  match criteria.max_hourly_cost, sku.price with
  | some max_cost, some price => decide (price > max_cost)
  | _, _ => false

/-- One pass of the `_apply_constraints` loop body: whether `sku` reaches
`filtered.append(sku)`. The sequence of `continue` guards becomes a
conjunction of negated skip conditions, in source order. -/
def constraint_pass (criteria : RecommendationCriteria) (sku : Sku) : Bool :=
  if sku.zones = [] then false
  else if (sku.zones.length : Int) < criteria.min_availability_zones then false
  else if cost_excludes sku criteria then false
  else if eviction_excludes sku criteria then false
  else true

/-- `RecommendationService._apply_constraints`. -/
def _apply_constraints (skus : List Sku) (criteria : RecommendationCriteria) : List Sku :=
  skus.filter (constraint_pass criteria)

/-! ## Ranking (`recommend_top_skus`) -/

/-- `{**sku, "recommendation_score": ..., "score_breakdown": ...,
"recommendation_reason": ...}`: the scored SKU dict. -/
structure ScoredSku where
  sku : Sku
  recommendation_score : ℚ
  score_breakdown : ScoreBreakdown
  recommendation_reason : String
deriving DecidableEq, Repr, Inhabited

/-- Build one scored SKU entry (loop body of `recommend_top_skus`,
source lines 65–75). -/
def score_one (all_skus : List Sku) (criteria : RecommendationCriteria) (sku : Sku) :
    Option ScoredSku :=
  (_calculate_sku_score sku all_skus criteria).map (fun r =>
    { sku := sku
      recommendation_score := r.total_score
      score_breakdown := r.breakdown
      recommendation_reason := r.reason })

/-- The scoring loop over the filtered pool; `none` propagates a raised
`ZeroDivisionError` from any pool member. -/
def score_list (all_skus : List Sku) (criteria : RecommendationCriteria) :
    List Sku → Option (List ScoredSku)
  | [] => some []
  | s :: rest =>
    match score_one all_skus criteria s, score_list all_skus criteria rest with
    | some x, some xs => some (x :: xs)
    | _, _ => none

/-- The scored candidate pool of a request: every constraint-surviving SKU,
scored against the filtered pool itself. -/
def scored_pool (skus : List Sku) (criteria : RecommendationCriteria) :
    Option (List ScoredSku) :=
  let filtered := _apply_constraints skus criteria
  score_list filtered criteria filtered

/-- The sort key relation of `scored_skus.sort(key=..., reverse=True)`:
descending by `recommendation_score`; a stable merge sort under this total
reflexive relation keeps equal-score entries in pool order, exactly like
Python's stable `list.sort` with `reverse=True`. -/
def score_desc (a b : ScoredSku) : Bool :=
  decide (b.recommendation_score ≤ a.recommendation_score)

/-- `RecommendationService.recommend_top_skus`. `none` models the
`ZeroDivisionError` escaping the scoring loop. -/
def recommend_top_skus (skus : List Sku) (criteria : RecommendationCriteria)
    (limit : Nat) : Option (List ScoredSku) :=
  if skus = [] then some []
  else
    let filtered := _apply_constraints skus criteria
    if filtered = [] then some []
    else
      (scored_pool skus criteria).map (fun scored =>
        (scored.mergeSort score_desc).take limit)

/-! ## Raw provider records and the SKU normalizer
(`ComputeClient._extract_sku_specs` and the per-record body of
`AzureSKUClient.list_spot_skus`) -/

/-- A Python value as it occurs in raw SDK capability slots: a bool, a string,
or `None` (also the result of a missing `dict.get`/`getattr` lookup). -/
inductive PyVal where
  | vBool (b : Bool)
  | vStr (s : String)
  | vNone
deriving DecidableEq, Repr, Inhabited

/-- Python `str(v)` on a `PyVal`. -/
def pyStr : PyVal → String
  | .vBool true => "True"
  | .vBool false => "False"
  | .vStr s => s
  | .vNone => "None"

/-- One entry of `sku.capabilities`: `name` is
`(getattr(c, "name", "") or "")`, already collapsed to a string. -/
structure Capability where
  name : String
  value : PyVal
deriving DecidableEq, Repr, Inhabited

/-- One entry of `sku.restrictions`. `reason_code` models
`getattr(r, "reason_code", None)` (with the empty string also falsy);
`locations` models `list(getattr(r, "locations", []) or [])` after `str`. -/
structure Restriction where
  reason_code : Option String
  locations : List String
deriving DecidableEq, Repr, Inhabited

/-- One entry of `sku.location_info`. -/
structure LocationInfo where
  location : Option String
  zones : List PyVal
deriving DecidableEq, Repr, Inhabited

/-- A raw Azure `ResourceSku` object, restricted to the attributes the
normalizers read. -/
structure RawSku where
  resource_type : Option String := none
  capabilities : List Capability := []
  restrictions : List Restriction := []
  name : Option String := none
  family : Option String := none
  size : Option String := none
  location_info : List LocationInfo := []
deriving DecidableEq, Repr, Inhabited

/-- `(str(getattr(sku, "name", "")) or "").lower()`: note Python renders a
`None` attribute as the (truthy) string `"None"`. -/
def name_lower (sku : RawSku) : String :=
  lowerStr (match sku.name with | none => "None" | some s => s)

/-- `(str(getattr(sku, "family", "")) or "").lower()`. -/
def family_lower (sku : RawSku) : String :=
  lowerStr (match sku.family with | none => "None" | some s => s)

/-- Filter 1: `"virtualmachine" in resource_type or "compute" in resource_type`
on the lowered resource type (`None` collapses to `""`). -/
def resource_type_ok (sku : RawSku) : Bool :=
  let resource_type := lowerStr (sku.resource_type.getD "")
  containsStr resource_type "virtualmachine" || containsStr resource_type "compute"

/-- `caps.get(key)`: the capability dict is built by a comprehension over
lowered names, so a repeated name keeps the last occurrence; a missing key
yields Python `None`. -/
def capsGet (caps : List Capability) (key : String) : PyVal :=
  match caps.reverse.find? (fun c => lowerStr c.name = key) with
  | some c => c.value
  | none => .vNone

/-- Filter 2: `low_priority is True or str(low_priority).lower() in ("true", "1")`. -/
def spot_capable (caps : List Capability) : Bool :=
  let low_priority := capsGet caps "lowprioritycapable"
  decide (low_priority = PyVal.vBool true)
  || decide (lowerStr (pyStr low_priority) = "true")
  || decide (lowerStr (pyStr low_priority) = "1")

/-- Filter 3: the `restricted` loop — some restriction has a truthy reason code
equal (lowered) to `"notavailableforsubscription"` whose location list is empty
or contains the region (case-insensitive). -/
def restricted_in (restrictions : List Restriction) (region : String) : Bool :=
  restrictions.any (fun r =>
    match r.reason_code with
    | none => false
    | some rc =>
      if rc = "" then false
      else
        decide (lowerStr rc = "notavailableforsubscription")
        && (r.locations.isEmpty
            || r.locations.any (fun x => lowerStr x = lowerStr region)))

/-- The B-series business rule shared verbatim by both normalizers: the lowered
name starts with `"standard_b"`, or the lowered family starts with
`"standard_b"` or `"standardb"`. -/
def b_series (nm fam : String) : Bool :=
  startsWithStr nm "standard_b"
  || startsWithStr fam "standard_b"
  || startsWithStr fam "standardb"

/-- GPU name/family substrings of `ComputeClient._extract_sku_specs`. -/
def gpu_patterns : List String :=
  ["_nc", "_nd", "_nv", "_nsv2",
   "standard_nc", "standard_nd", "standard_nv", "standard_nsv2",
   "microsoft.hpcgpu", "gpu"]

/-- ARM64 name/family substrings of `ComputeClient._extract_sku_specs`. -/
def arm64_patterns : List String :=
  ["pls", "pds", "ps_", "pds_", "pls_", "eps", "epds"]

/-- GPU flag: any pattern occurs in name or family, or any capability name
contains `"gpu"`/`"nvidia"`. -/
def detect_gpu (patterns : List String) (nm fam : String)
    (capabilities : List Capability) : Bool :=
  patterns.any (fun p => containsStr nm p)
  || patterns.any (fun p => containsStr fam p)
  || capabilities.any (fun c =>
       containsStr (lowerStr c.name) "gpu" || containsStr (lowerStr c.name) "nvidia")

/-- `int(val)` under `try/except → None`: bools coerce to 0/1, strings parse as
an optionally signed decimal integer with surrounding whitespace, `None` fails. -/
def _as_int (val : PyVal) : Option Int :=
  match val with
  | .vBool true => some 1
  | .vBool false => some 0
  | .vNone => none
  | .vStr s =>
    let t := (s.data.dropWhile Char.isWhitespace).reverse.dropWhile Char.isWhitespace |>.reverse
    let (sign, ds) :=
      match t with
      | '-' :: rest => ((-1 : Int), rest)
      | '+' :: rest => ((1 : Int), rest)
      | _ => ((1 : Int), t)
    if ds ≠ [] && ds.all Char.isDigit then
      some (sign * (ds.foldl (fun a c => a * 10 + ((c.toNat : Int) - 48)) 0))
    else none

/-- `float(val)` under `try/except → None`: bools coerce, `None` fails, strings
parse as an optionally signed decimal numeral `digits[.digits]` with
surrounding whitespace (the forms occurring in capability data). -/
def _as_float (val : PyVal) : Option ℚ :=
  match val with
  | .vBool true => some 1
  | .vBool false => some 0
  | .vNone => none
  | .vStr s =>
    let t := (s.data.dropWhile Char.isWhitespace).reverse.dropWhile Char.isWhitespace |>.reverse
    let (sign, ds) :=
      match t with
      | '-' :: rest => ((-1 : ℚ), rest)
      | '+' :: rest => ((1 : ℚ), rest)
      | _ => ((1 : ℚ), t)
    match ds.splitOn '.' with
    | [w] =>
      if w ≠ [] && w.all Char.isDigit then
        some (sign * (w.foldl (fun a c => a * 10 + ((c.toNat : ℚ) - 48)) 0))
      else none
    | [w, f] =>
      if w ≠ [] && w.all Char.isDigit && f ≠ [] && f.all Char.isDigit then
        some (sign * ((w.foldl (fun a c => a * 10 + ((c.toNat : ℚ) - 48)) 0)
          + (f.foldl (fun a c => a * 10 + ((c.toNat : ℚ) - 48)) 0) / (10 ^ f.length)))
      else none
    | _ => none

/-- String ≤ as a Bool, for Python's `sorted` over zone ids. -/
def strLe (a b : String) : Bool := decide (a ≤ b)

/-- `sorted(zones_set)`: the zone ids collected from location-detail entries
matching the region (or all entries when the region is empty), as a sorted
list of distinct strings. -/
def extract_zones (location_info : List LocationInfo) (region : String) : List String :=
  let collected := location_info.foldl (fun acc li =>
    let loc := lowerStr (li.location.getD "")
    if loc = lowerStr region || region = "" then acc ++ li.zones.map pyStr
    else acc) []
  (collected.dedup).mergeSort strLe

/-- The normalized record returned by `ComputeClient._extract_sku_specs`. -/
structure SkuSpecs where
  name : Option String
  size : Option String
  family : Option String
  has_gpu : Bool
  architecture : String
  vcpus : Option Int
  memory_gb : Option ℚ
  zones : List String
deriving DecidableEq, Repr, Inhabited

/-- `ComputeClient._extract_sku_specs`: the api-side normalizer. `none` is a
rejection (a normal outcome, not an error). -/
def _extract_sku_specs (sku : RawSku) (region : String) : Option SkuSpecs :=
  if resource_type_ok sku then
    if spot_capable sku.capabilities then
      if restricted_in sku.restrictions region then none
      else
        let nm := name_lower sku
        let fam := family_lower sku
        if b_series nm fam then none
        else
          some
            { name := sku.name
              size := sku.size
              family := sku.family
              has_gpu := detect_gpu gpu_patterns nm fam sku.capabilities
              architecture :=
                if arm64_patterns.any (fun p => containsStr nm p)
                   || arm64_patterns.any (fun p => containsStr fam p)
                then "Arm64" else "x64"
              vcpus := _as_int (capsGet sku.capabilities "vcpus")
              memory_gb := _as_float (capsGet sku.capabilities "memorygb")
              zones := extract_zones sku.location_info region }
    else none
  else none

/-- GPU tokens of the backend normalizer (`AzureSKUClient.list_spot_skus`). -/
def backend_gpu_tokens : List String :=
  ["nc", "nd", "nv", "nsv2", "microsoft.hpcgpu", "gpu"]

/-- The `sku_dict` produced by the backend normalizer. -/
structure BackendSkuRecord where
  name : Option String
  size : Option String
  family : Option String
  has_gpu : Bool
  vcpus : Option Int
  memory_gb : Option ℚ
  zones : List String
deriving DecidableEq, Repr, Inhabited

/-- The per-record body of `AzureSKUClient.list_spot_skus`
(`backend/app/azure_client.py` lines 38–126): `none` when the record is
skipped by a `continue`, otherwise the appended `sku_dict`. The rejection
guards (resource type, spot capability, subscription restriction, B-series)
are textually identical to the api-side normalizer and reuse its definitions. -/
def backend_spot_sku (sku : RawSku) (region : String) : Option BackendSkuRecord :=
  if resource_type_ok sku then
    if spot_capable sku.capabilities then
      if restricted_in sku.restrictions region then none
      else
        let nm := name_lower sku
        let fam := family_lower sku
        if b_series nm fam then none
        else
          some
            { name := sku.name
              size := sku.size
              family := sku.family
              has_gpu := detect_gpu backend_gpu_tokens nm fam sku.capabilities
              vcpus := _as_int (capsGet sku.capabilities "vcpus")
              memory_gb := _as_float (capsGet sku.capabilities "memorygb")
              zones := extract_zones sku.location_info region }
    else none
  else none

/-! ## Candidate dedupe/merge (`backend/app/filters.py`, `filter_and_shape_items`
lines 54–88: the clean + dedupe phase) -/

/-- A sku item dict as consumed by `filter_and_shape_items`, restricted to the
keys the function reads. `none` models a missing key or `None` value. -/
structure Item where
  vmSku : Option String := none
  vCPUs : Option Int := none
  memoryGB : Option ℚ := none
  gpu : Bool := false
  supportsSpot : Bool := false
  vmSeries : Option String := none
  zones : List String := []
deriving DecidableEq, Repr, Inhabited

/-- Python truthiness of `it.get("vmSku")`: present and non-empty. -/
def truthy_name : Option String → Bool
  | none => false
  | some s => !(s = "")

/-- Python truthiness of `it.get("vCPUs")`: present and non-zero. -/
def truthy_int : Option Int → Bool
  | none => false
  | some n => decide (n ≠ 0)

/-- Python truthiness of `it.get("memoryGB")`: present and non-zero. -/
def truthy_rat : Option ℚ → Bool
  | none => false
  | some q => decide (q ≠ 0)

/-- The `clean` phase: drop items whose `vmSku` is missing/None/empty. (The
`not it or not isinstance(it, dict)` guard is vacuous under typing.) -/
def clean_items (items : List Item) : List Item :=
  items.filter (fun it => truthy_name it.vmSku)

/-- `sorted(set(ez) | set(iz))`: sorted distinct union of zone lists. -/
def sorted_union (ez iz : List String) : List String :=
  ((ez ++ iz).dedup).mergeSort strLe

/-- The duplicate branch of the dedupe loop (filters.py lines 72–81): union the
zone sets; adopt the new `vCPUs`/`memoryGB` only when the stored value is
falsy (missing or zero) and the incoming one is truthy; every other field
keeps the stored value. -/
def merge_dup (existing it : Item) : Item :=
  { existing with
    zones := sorted_union existing.zones it.zones
    vCPUs := if !truthy_int existing.vCPUs && truthy_int it.vCPUs
             then it.vCPUs else existing.vCPUs
    memoryGB := if !truthy_rat existing.memoryGB && truthy_rat it.memoryGB
                then it.memoryGB else existing.memoryGB }

/-- Insert one cleaned item into the ordered dedupe table: an existing entry
with the same `vmSku` is merged in place (Python dicts keep the first
insertion position); otherwise the item is appended. The first-insertion
zone normalization `[str(z) for z in ...]` is the identity here because
zones are already strings. -/
def insert_item : List Item → Item → List Item
  | [], it => [it]
  | e :: rest, it =>
    if e.vmSku = it.vmSku then merge_dup e it :: rest
    else e :: insert_item rest it

/-- `list(dedup.values())`: the clean + dedupe phases of
`filter_and_shape_items`, producing the merged candidate pool in first-seen
order. -/
def dedupe_pool (items : List Item) : List Item :=
  (clean_items items).foldl insert_item []

/-! ## Concrete instances used by the claim theorems and their witnesses -/

/-- A criteria whose five weights sum to `1.0` but include a negative weight. -/
def c1_crit : RecommendationCriteria :=
  { price_weight := 2, eviction_weight := -1, performance_weight := 0,
    availability_weight := 0, architecture_weight := 0 }

/-- A candidate whose price score is `1.0` and whose eviction score is `0.1`
(unrecognized bucket) in its own singleton pool. -/
def c1_sku : Sku :=
  { name := "A", price := some 1, eviction_rate := some "zz",
    vcpus := some 1, memory_gb := some 0, zones := ["1"] }

/-- A minimal candidate for the C1 witness pool. -/
def c1w_sku : Sku := { name := "W", zones := ["1"] }

/-- The score result of the C1 witness candidate under default criteria. -/
def c1w_res : ScoreResult :=
  (_calculate_sku_score c1w_sku [c1w_sku] {}).getD default

/-- Five candidates with pairwise-distinct prices (hence pairwise-distinct
composite scores) for the C2 witness. -/
def c2_pool : List Sku :=
  [{ name := "A", price := some (1/10), zones := ["1"] },
   { name := "B", price := some (2/10), zones := ["1"] },
   { name := "C", price := some (3/10), zones := ["1"] },
   { name := "D", price := some (4/10), zones := ["1"] },
   { name := "E", price := some (5/10), zones := ["1"] }]

/-- The C2 witness output: top 3 of the 5-candidate pool, default criteria. -/
def c2_out : List ScoredSku := (recommend_top_skus c2_pool {} 3).getD []

/-- The C2 witness scored pool. -/
def c2_scored : List ScoredSku := (scored_pool c2_pool {}).getD []

/-- Modelled from the claim's words (not the source): the reasoning described
by C3 — the threshold-qualifying phrases capped to the first three, with the
`optimize_for` tag appended *in addition* (i.e. after the cap) whenever
`optimize_for` is not balanced. -/
def claimed_reason (b : ScoreBreakdown) (arch : Option String) (opt : OptimizeFor) : String :=
  "Recommended for "
    ++ String.intercalate ", " ((threshold_phrases b arch).take 3 ++ opt_tag opt)

/-- A candidate that clears three reasoning thresholds in its singleton pool
(price score 1, eviction score 1, performance score 1). -/
def c3_sku : Sku :=
  { name := "A", price := some 1, eviction_rate := some "0-5",
    vcpus := some 1, memory_gb := some 0, zones := ["1"] }

/-- Cost-optimizing criteria for the C3 counterexample. -/
def c3_crit : RecommendationCriteria := { optimize_for := .cost }

/-- The C3 witness score result. -/
def c3w_res : ScoreResult :=
  (_calculate_sku_score c3_sku [c3_sku] c3_crit).getD default

/-- The risk-ordered eviction-rate buckets of the data model. -/
def riskOrder : List String := ["0-5", "5-10", "10-15", "15-20", "20+"]

/-- The C4 witness criteria: ceiling `"5-10"`. -/
def c4_crit : RecommendationCriteria := { max_eviction_rate := some "5-10" }

/-- The C4 witness candidate: bucket `"10-15"`, one ordinal above the ceiling. -/
def c4_sku : Sku := { name := "E", eviction_rate := some "10-15", zones := ["1"] }

/-- A B-series raw record that passes every other filter (so the rejection is
genuinely due to the B-series rule). -/
def c5_sku : RawSku :=
  { resource_type := some "virtualMachines",
    capabilities := [{ name := "LowPriorityCapable", value := .vStr "True" }],
    name := some "Standard_B2s",
    family := some "standardBSFamily" }

/-- A raw record whose spot capability carries the string `"False"`. -/
def c6_sku : RawSku :=
  { resource_type := some "virtualMachines",
    capabilities := [{ name := "LowPriorityCapable", value := .vStr "False" }],
    name := some "Standard_D2s_v3" }

/-- A one-candidate pool for the C8 witness. -/
def c8_pool : List Sku := [{ name := "S", price := some (1/4), zones := ["1", "2"] }]

/-- A candidate with a present price but `vcpus = 0` and `memory_gb = 0`:
its compute units are `0 + 0/4 = 0`. -/
def c9_sku : Sku :=
  { name := "Z", price := some 1, vcpus := some 0, memory_gb := some 0,
    zones := ["1"] }

/-- Criteria with a non-positive zone minimum for the C10 witness. -/
def c10_crit : RecommendationCriteria := { min_availability_zones := -1 }

/-- A single-zone candidate for the C10 witness. -/
def c10_sku : Sku := { name := "N", zones := ["1"] }

/-- The C10 witness output list. -/
def c10_out : List ScoredSku := (recommend_top_skus [c10_sku] c10_crit 5).getD []

/-- The per-name membership test of the dedupe table (`key in dedup`). -/
def name_key (n : String) (it : Item) : Bool := decide (it.vmSku = some n)

/-- Folding the duplicate-merge step over the later occurrences of a name,
starting from the first-seen record. -/
def fold_merge (x : Item) (xs : List Item) : Item := xs.foldl merge_dup x

/-- Items for the C7 witness: two `"A"` records (zone union, vCPU backfill),
one `"B"` record, and one empty-named record that must be dropped. -/
def c7_items : List Item :=
  [{ vmSku := some "A", zones := ["2"], memoryGB := some 8, gpu := false },
   { vmSku := some "", zones := ["9"] },
   { vmSku := some "A", vCPUs := some 4, zones := ["1"] },
   { vmSku := some "B", vCPUs := some 2, zones := ["1"] }]

/-! ## Score-bound lemmas -/

lemma clamp01_nonneg (q : ℚ) : 0 ≤ clamp01 q := le_max_left 0 _

lemma clamp01_le_one (q : ℚ) : clamp01 q ≤ 1 :=
  max_le (by norm_num) (min_le_left 1 q)

lemma price_score_bounds (sku : Sku) (all_skus : List Sku) :
    0 ≤ _calculate_price_score sku all_skus ∧ _calculate_price_score sku all_skus ≤ 1 := by
  rcases hp : sku.price with - | p
  · simp only [_calculate_price_score, hp]
    norm_num
  · simp only [_calculate_price_score, hp]
    split
    · norm_num
    · split
      · norm_num
      · exact ⟨clamp01_nonneg _, clamp01_le_one _⟩

lemma eviction_score_bounds (sku : Sku) :
    0 ≤ _calculate_eviction_score sku ∧ _calculate_eviction_score sku ≤ 1 := by
  rcases he : sku.eviction_rate with - | r
  · simp only [_calculate_eviction_score, he]
    norm_num
  · simp only [_calculate_eviction_score, he]
    split_ifs <;> norm_num

lemma performance_score_bounds (sku : Sku) (all_skus : List Sku) (p : ℚ)
    (h : _calculate_performance_score sku all_skus = some p) : 0 ≤ p ∧ p ≤ 1 := by
  rcases hp : sku.price with - | price
  · simp only [_calculate_performance_score, hp] at h
    cases h; norm_num
  · rcases hv : sku.vcpus with - | vcpus
    · simp only [_calculate_performance_score, hp, hv] at h
      cases h; norm_num
    · rcases hm : sku.memory_gb with - | memory_gb
      · simp only [_calculate_performance_score, hp, hv, hm] at h
        cases h; norm_num
      · simp only [_calculate_performance_score, hp, hv, hm] at h
        split at h
        · cases h
        · cases hr : perf_pool_ratios all_skus with
          | none => rw [hr] at h; cases h
          | some rs =>
            rw [hr] at h
            simp only [Option.map] at h
            split at h
            · cases h; norm_num
            · split at h
              · cases h; norm_num
              · cases h; exact ⟨clamp01_nonneg _, clamp01_le_one _⟩

lemma foldl_max_init_le (l : List ℕ) (a : ℕ) : a ≤ l.foldl max a := by
  induction l generalizing a with
  | nil => exact le_refl a
  | cons b t ih => exact le_trans (le_max_left a b) (ih (max a b))

lemma le_foldl_max : ∀ (l : List ℕ) (a x : ℕ), x ∈ l → x ≤ l.foldl max a := by
  intro l
  induction l with
  | nil => intro a x hx; cases hx
  | cons b t ih =>
    intro a x hx
    rcases List.mem_cons.mp hx with rfl | h
    · exact le_trans (le_max_right a x) (foldl_max_init_le t (max a x))
    · exact ih (max a b) x h

lemma availability_score_bounds (sku : Sku) (all_skus : List Sku) (hmem : sku ∈ all_skus) :
    0 ≤ _calculate_availability_score sku all_skus
    ∧ _calculate_availability_score sku all_skus ≤ 1 := by
  simp only [_calculate_availability_score]
  set mz := (all_skus.map (fun s => s.zones.length)).foldl max 0 with hmz
  by_cases h0 : mz = 0
  · simp [h0]
  · have hle : sku.zones.length ≤ mz :=
      le_foldl_max _ 0 _ (List.mem_map_of_mem _ hmem)
    have hpos : (0 : ℚ) < (mz : ℚ) := by
      exact_mod_cast Nat.pos_of_ne_zero h0
    simp only [h0, if_false]
    constructor
    · positivity
    · rw [div_le_one hpos]
      exact_mod_cast hle

lemma architecture_score_bounds (sku : Sku) (c : RecommendationCriteria) :
    0 ≤ _calculate_architecture_score sku c ∧ _calculate_architecture_score sku c ≤ 1 := by
  rcases ha : c.architecture_preference with - | pref
  · simp only [_calculate_architecture_score, ha]
    split_ifs <;> norm_num
  · simp only [_calculate_architecture_score, ha]
    split_ifs <;> norm_num

lemma weighted_total_bounds (b : ScoreBreakdown) (c : RecommendationCriteria)
    (hp0 : 0 ≤ b.price_score) (hp1 : b.price_score ≤ 1)
    (he0 : 0 ≤ b.eviction_score) (he1 : b.eviction_score ≤ 1)
    (hf0 : 0 ≤ b.performance_score) (hf1 : b.performance_score ≤ 1)
    (ha0 : 0 ≤ b.availability_score) (ha1 : b.availability_score ≤ 1)
    (hr0 : 0 ≤ b.architecture_score) (hr1 : b.architecture_score ≤ 1)
    (wp : 0 ≤ c.price_weight) (we : 0 ≤ c.eviction_weight)
    (wf : 0 ≤ c.performance_weight) (wa : 0 ≤ c.availability_weight)
    (wr : 0 ≤ c.architecture_weight)
    (hsum : c.price_weight + c.eviction_weight + c.performance_weight
      + c.availability_weight + c.architecture_weight = 1) :
    0 ≤ weighted_total b c ∧ weighted_total b c ≤ 1 := by
  unfold weighted_total
  constructor
  · have h1 := mul_nonneg hp0 wp
    have h2 := mul_nonneg he0 we
    have h3 := mul_nonneg hf0 wf
    have h4 := mul_nonneg ha0 wa
    have h5 := mul_nonneg hr0 wr
    linarith
  · have g1 : b.price_score * c.price_weight ≤ c.price_weight :=
      mul_le_of_le_one_left wp hp1
    have g2 : b.eviction_score * c.eviction_weight ≤ c.eviction_weight :=
      mul_le_of_le_one_left we he1
    have g3 : b.performance_score * c.performance_weight ≤ c.performance_weight :=
      mul_le_of_le_one_left wf hf1
    have g4 : b.availability_score * c.availability_weight ≤ c.availability_weight :=
      mul_le_of_le_one_left wa ha1
    have g5 : b.architecture_score * c.architecture_weight ≤ c.architecture_weight :=
      mul_le_of_le_one_left wr hr1
    linarith

/-- Unpack a successful `_calculate_sku_score` into its breakdown fields. -/
lemma sku_score_breakdown (sku : Sku) (all_skus : List Sku)
    (criteria : RecommendationCriteria) (r : ScoreResult)
    (h : _calculate_sku_score sku all_skus criteria = some r) :
    r.breakdown.price_score = _calculate_price_score sku all_skus
    ∧ r.breakdown.eviction_score = _calculate_eviction_score sku
    ∧ _calculate_performance_score sku all_skus = some r.breakdown.performance_score
    ∧ r.breakdown.availability_score = _calculate_availability_score sku all_skus
    ∧ r.breakdown.architecture_score = _calculate_architecture_score sku criteria
    ∧ r.reason = "Recommended for " ++ String.intercalate ", "
        ((reasoning_parts r.breakdown sku.architecture criteria.optimize_for).take 3) := by
  unfold _calculate_sku_score at h
  cases hp : _calculate_performance_score sku all_skus with
  | none => rw [hp] at h; cases h
  | some p =>
    rw [hp] at h
    simp only [Option.map] at h
    cases h
    exact ⟨rfl, rfl, rfl, rfl, rfl, rfl⟩

/-! ## Claim C1 — sub-score and composite ranges -/

/-- C1, counterexample: with weights `(2, -1, 0, 0, 0)` — which sum to `1.0`
as the claim requires — the weighted composite before the `optimize_for`
blend is `1.9 ∉ [0, 1]` for a non-empty filtered pool, so the composite part
of the claim fails when weights may be negative. -/
theorem C1_counterexample :
    c1_crit.price_weight + c1_crit.eviction_weight + c1_crit.performance_weight
      + c1_crit.availability_weight + c1_crit.architecture_weight = 1
    ∧ _apply_constraints [c1_sku] c1_crit = [c1_sku]
    ∧ (_calculate_sku_score c1_sku [c1_sku] c1_crit).map
        (fun r => weighted_total r.breakdown c1_crit) = some (19/10)
    ∧ ¬ ((19 : ℚ)/10 ≤ 1) := by
  refine ⟨by norm_num [c1_crit], by with_unfolding_all decide,
    by with_unfolding_all decide, by norm_num⟩

/-- C1, amended: for every non-empty filtered pool, every member, and every
criteria whose five weights are *nonnegative* and sum to `1.0`, whenever
`_calculate_sku_score` returns a result, each of the five sub-scores lies in
`[0, 1]`, and so does the weighted composite before the `optimize_for`
blend. -/
theorem C1_subscores_and_composite_in_unit_interval (sku : Sku) (all_skus : List Sku)
    (criteria : RecommendationCriteria) (r : ScoreResult)
    (hmem : sku ∈ all_skus)
    (wp : 0 ≤ criteria.price_weight) (we : 0 ≤ criteria.eviction_weight)
    (wf : 0 ≤ criteria.performance_weight) (wa : 0 ≤ criteria.availability_weight)
    (wr : 0 ≤ criteria.architecture_weight)
    (hsum : criteria.price_weight + criteria.eviction_weight
      + criteria.performance_weight + criteria.availability_weight
      + criteria.architecture_weight = 1)
    (hcalc : _calculate_sku_score sku all_skus criteria = some r) :
    (0 ≤ r.breakdown.price_score ∧ r.breakdown.price_score ≤ 1)
    ∧ (0 ≤ r.breakdown.eviction_score ∧ r.breakdown.eviction_score ≤ 1)
    ∧ (0 ≤ r.breakdown.performance_score ∧ r.breakdown.performance_score ≤ 1)
    ∧ (0 ≤ r.breakdown.availability_score ∧ r.breakdown.availability_score ≤ 1)
    ∧ (0 ≤ r.breakdown.architecture_score ∧ r.breakdown.architecture_score ≤ 1)
    ∧ (0 ≤ weighted_total r.breakdown criteria
       ∧ weighted_total r.breakdown criteria ≤ 1) := by
  obtain ⟨hbp, hbe, hbf, hba, hbr, -⟩ :=
    sku_score_breakdown sku all_skus criteria r hcalc
  have Hp := price_score_bounds sku all_skus
  have He := eviction_score_bounds sku
  have Hf := performance_score_bounds sku all_skus r.breakdown.performance_score hbf
  have Ha := availability_score_bounds sku all_skus hmem
  have Hr := architecture_score_bounds sku criteria
  rw [hbp, hbe, hba, hbr]
  refine ⟨Hp, He, Hf, Ha, Hr, ?_⟩
  have := weighted_total_bounds r.breakdown criteria
    (hbp ▸ Hp.1) (hbp ▸ Hp.2) (hbe ▸ He.1) (hbe ▸ He.2) Hf.1 Hf.2
    (hba ▸ Ha.1) (hba ▸ Ha.2) (hbr ▸ Hr.1) (hbr ▸ Hr.2) wp we wf wa wr hsum
  exact this

/-- C1 witness: the amended theorem applied to a concrete singleton pool with
the default criteria (whose weights are nonnegative and sum to `1.0`). -/
theorem C1_witness :
    (0 ≤ c1w_res.breakdown.price_score ∧ c1w_res.breakdown.price_score ≤ 1)
    ∧ (0 ≤ c1w_res.breakdown.eviction_score ∧ c1w_res.breakdown.eviction_score ≤ 1)
    ∧ (0 ≤ c1w_res.breakdown.performance_score ∧ c1w_res.breakdown.performance_score ≤ 1)
    ∧ (0 ≤ c1w_res.breakdown.availability_score ∧ c1w_res.breakdown.availability_score ≤ 1)
    ∧ (0 ≤ c1w_res.breakdown.architecture_score ∧ c1w_res.breakdown.architecture_score ≤ 1)
    ∧ (0 ≤ weighted_total c1w_res.breakdown {}
       ∧ weighted_total c1w_res.breakdown {} ≤ 1) :=
  C1_subscores_and_composite_in_unit_interval c1w_sku [c1w_sku] {} c1w_res
    (by with_unfolding_all decide) (by norm_num) (by norm_num) (by norm_num)
    (by norm_num) (by norm_num) (by norm_num) (by with_unfolding_all rfl)

/-! ## Claim C2 — ranking: stable descending sort, truncation, empty pools -/

lemma score_desc_trans : ∀ a b c : ScoredSku,
    score_desc a b → score_desc b c → score_desc a c := by
  intro a b c hab hbc
  simp only [score_desc, decide_eq_true_eq] at *
  exact le_trans hbc hab

lemma score_desc_total : ∀ a b : ScoredSku, score_desc a b || score_desc b a := by
  intro a b
  simp only [score_desc, Bool.or_eq_true, decide_eq_true_eq]
  exact le_total b.recommendation_score a.recommendation_score

/-- Stability of the descending sort: for every score value, the sorted pool
lists the candidates having that score in exactly their pool order. -/
lemma mergeSort_score_filter_eq (scored : List ScoredSku) (q : ℚ) :
    (scored.mergeSort score_desc).filter (fun x => decide (x.recommendation_score = q))
    = scored.filter (fun x => decide (x.recommendation_score = q)) := by
  set p : ScoredSku → Bool := fun x => decide (x.recommendation_score = q) with hp
  have hmemq : ∀ x ∈ scored.filter p, x.recommendation_score = q := by
    intro x hx
    have h := (List.mem_filter.mp hx).2
    simpa [hp] using h
  have hpair : (scored.filter p).Pairwise (fun a b => score_desc a b = true) := by
    apply List.pairwise_of_forall_mem_list
    intro a ha b hb
    simp only [score_desc, decide_eq_true_eq]
    rw [hmemq a ha, hmemq b hb]
  have h1 : List.Sublist (scored.filter p) (scored.mergeSort score_desc) :=
    List.sublist_mergeSort score_desc_trans score_desc_total hpair (List.filter_sublist _)
  have h2 : List.Sublist (scored.filter p) ((scored.mergeSort score_desc).filter p) := by
    have h3 := h1.filter p
    rwa [List.filter_eq_self.mpr (fun a ha => (List.mem_filter.mp ha).2)] at h3
  have hlen : ((scored.mergeSort score_desc).filter p).length = (scored.filter p).length :=
    ((List.mergeSort_perm scored score_desc).filter p).length_eq
  exact (h2.eq_of_length hlen.symm).symm

/-- C2: an empty input pool or an empty filtered pool yields `some []` (not an
error); otherwise the output is the scored pool stably sorted by descending
`recommendation_score` and truncated to the first `limit` entries: it is the
`take limit` of a permutation of the scored pool that is sorted descending,
and candidates of equal score appear in pool order. -/
theorem C2_rank_sort_truncate :
    (∀ (criteria : RecommendationCriteria) (limit : Nat),
        recommend_top_skus [] criteria limit = some [])
    ∧ (∀ (skus : List Sku) (criteria : RecommendationCriteria) (limit : Nat),
        _apply_constraints skus criteria = [] →
        recommend_top_skus skus criteria limit = some [])
    ∧ (∀ (skus : List Sku) (criteria : RecommendationCriteria) (limit : Nat)
          (out scored : List ScoredSku),
        recommend_top_skus skus criteria limit = some out →
        scored_pool skus criteria = some scored →
        out = (scored.mergeSort score_desc).take limit
        ∧ out.length ≤ limit
        ∧ out.Pairwise (fun a b => b.recommendation_score ≤ a.recommendation_score)
        ∧ (scored.mergeSort score_desc).Perm scored
        ∧ ∀ q : ℚ,
            (scored.mergeSort score_desc).filter (fun x => decide (x.recommendation_score = q))
            = scored.filter (fun x => decide (x.recommendation_score = q))) := by
  refine ⟨?_, ?_, ?_⟩
  · intro criteria limit
    rfl
  · intro skus criteria limit h
    by_cases hsk : skus = []
    · subst hsk; rfl
    · simp [recommend_top_skus, hsk, h]
  · intro skus criteria limit out scored hrec hsp
    have key : out = (scored.mergeSort score_desc).take limit := by
      by_cases hsk : skus = []
      · subst hsk
        have h1 : _apply_constraints ([] : List Sku) criteria = [] := rfl
        have h2 : scored = [] := by
          simpa [scored_pool, h1, score_list] using hsp
        subst h2
        have h3 : out = [] := by simpa [recommend_top_skus] using hrec
        subst h3
        simp
      · by_cases hfl : _apply_constraints skus criteria = []
        · have h2 : scored = [] := by
            simpa [scored_pool, hfl, score_list] using hsp
          subst h2
          have h3 : out = [] := by
            simpa [recommend_top_skus, hsk, hfl] using hrec
          subst h3
          simp
        · have hform : recommend_top_skus skus criteria limit
              = (scored_pool skus criteria).map
                  (fun s => (s.mergeSort score_desc).take limit) := by
            simp [recommend_top_skus, hsk, hfl]
          rw [hform, hsp] at hrec
          simpa using hrec.symm
    refine ⟨key, ?_, ?_, List.mergeSort_perm scored score_desc,
      fun q => mergeSort_score_filter_eq scored q⟩
    · rw [key]
      simp only [List.length_take]
      omega
    · rw [key]
      have hsorted : (scored.mergeSort score_desc).Pairwise
          (fun a b => score_desc a b = true) :=
        List.sorted_mergeSort score_desc_trans score_desc_total scored
      have htake := hsorted.sublist (List.take_sublist limit _)
      exact htake.imp (fun hab => by
        simpa [score_desc, decide_eq_true_eq] using hab)

/-- C2 witness: requesting `limit = 3` from the 5-candidate distinctly-scored
pool returns 3 candidates, sorted descending — exactly `A`, `B`, `C`, the 3
cheapest (hence highest-scoring). -/
theorem C2_witness :
    c2_out.length ≤ 3
    ∧ c2_out.Pairwise (fun a b => b.recommendation_score ≤ a.recommendation_score)
    ∧ c2_out.map (fun s => s.sku.name) = ["A", "B", "C"] := by
  have h := C2_rank_sort_truncate.2.2 c2_pool {} 3 c2_out c2_scored
    (by with_unfolding_all rfl) (by with_unfolding_all rfl)
  exact ⟨h.2.1, h.2.2.1, by with_unfolding_all decide⟩

/-! ## Claim C3 — the reasoning string -/

/-- C3, counterexample: when three threshold phrases already qualify and
`optimize_for = "cost"`, the source appends the tag *before* taking the first
three entries, so the produced reasoning drops the `"cost-optimized"` tag —
it differs from the claim's construction (phrases capped to three with the
tag appended in addition). -/
theorem C3_counterexample :
    (_calculate_sku_score c3_sku [c3_sku] c3_crit).map
        (fun r => (r.reason,
          claimed_reason r.breakdown c3_sku.architecture c3_crit.optimize_for))
      = some
          ("Recommended for excellent pricing, very low eviction risk, excellent value",
           "Recommended for excellent pricing, very low eviction risk, excellent value, cost-optimized")
    ∧ "Recommended for excellent pricing, very low eviction risk, excellent value"
      ≠ "Recommended for excellent pricing, very low eviction risk, excellent value, cost-optimized" := by
  exact ⟨by with_unfolding_all decide, by decide⟩

/-- C3, amended: the reasoning produced by `_calculate_sku_score` consists of
the first three entries of the threshold-qualifying phrases *with the
`optimize_for` tag already appended* — so the tag appears only when at most
two threshold phrases qualify, and the cap of three applies to the combined
list. -/
theorem C3_reason_amended (sku : Sku) (all_skus : List Sku)
    (criteria : RecommendationCriteria) (r : ScoreResult)
    (h : _calculate_sku_score sku all_skus criteria = some r) :
    r.reason = "Recommended for " ++ String.intercalate ", "
      ((threshold_phrases r.breakdown sku.architecture
        ++ opt_tag criteria.optimize_for).take 3) := by
  obtain ⟨-, -, -, -, -, hreason⟩ := sku_score_breakdown sku all_skus criteria r h
  simpa [reasoning_parts] using hreason

/-- C3 witness: the amended statement at the concrete counterexample input. -/
theorem C3_witness :
    c3w_res.reason = "Recommended for " ++ String.intercalate ", "
      ((threshold_phrases c3w_res.breakdown c3_sku.architecture
        ++ opt_tag c3_crit.optimize_for).take 3) :=
  C3_reason_amended c3_sku [c3_sku] c3_crit c3w_res (by with_unfolding_all rfl)

/-! ## Claim C4 — the eviction-rate ceiling -/

/-- C4: with a bucket-valued ceiling set, a candidate is skipped on eviction
grounds iff its own rate is present and its bucket sits at a strictly greater
ordinal position than the ceiling in the risk-ordered bucket list; a candidate
with an unknown (missing) eviction rate is never excluded by this constraint,
and no candidate surviving `_apply_constraints` was eviction-excluded. -/
theorem C4_eviction_ceiling (criteria : RecommendationCriteria) (mr : String)
    (hmr : criteria.max_eviction_rate = some mr) (hmrb : mr ∈ riskOrder) :
    (∀ sku : Sku, sku.eviction_rate = none → eviction_excludes sku criteria = false)
    ∧ (∀ (sku : Sku) (er : String), sku.eviction_rate = some er → er ∈ riskOrder →
        (eviction_excludes sku criteria = true
          ↔ riskOrder.indexOf mr < riskOrder.indexOf er))
    ∧ (∀ (skus : List Sku) (sku : Sku), sku ∈ _apply_constraints skus criteria →
        eviction_excludes sku criteria = false) := by
  refine ⟨?_, ?_, ?_⟩
  · intro sku hnone
    simp [eviction_excludes, hmr, hnone]
  · intro sku er her herb
    have hred : eviction_excludes sku criteria = ! _is_eviction_rate_acceptable er mr := by
      simp [eviction_excludes, hmr, her]
    rw [hred]
    simp only [riskOrder, List.mem_cons, List.not_mem_nil, or_false] at hmrb herb
    rcases hmrb with rfl | rfl | rfl | rfl | rfl <;>
      rcases herb with rfl | rfl | rfl | rfl | rfl <;> with_unfolding_all decide
  · intro skus sku hmem
    have hpass : constraint_pass criteria sku = true :=
      (List.mem_filter.mp hmem).2
    by_contra hne
    have hex : eviction_excludes sku criteria = true := by
      cases h : eviction_excludes sku criteria
      · exact absurd h hne
      · rfl
    simp [constraint_pass, hex] at hpass

/-- C4 witness: a `"10-15"` candidate is excluded under a `"5-10"` ceiling. -/
theorem C4_witness : eviction_excludes c4_sku c4_crit = true := by
  have h := (C4_eviction_ceiling c4_crit "5-10" rfl (by decide)).2.1
    c4_sku "10-15" rfl (by decide)
  exact h.mpr (by decide)

/-! ## Claim C5 — B-series exclusion -/

/-- C5: a raw record whose (lowered) name or family carries the B-series
prefix is rejected by both normalizers — regardless of its capability flags,
since every other branch of the extraction also returns `none`. -/
theorem C5_b_series_rejected (sku : RawSku) (region : String)
    (h : b_series (name_lower sku) (family_lower sku) = true) :
    _extract_sku_specs sku region = none ∧ backend_spot_sku sku region = none := by
  constructor
  · simp only [_extract_sku_specs, h]
    split
    · split
      · split
        · rfl
        · simp
      · rfl
    · rfl
  · simp only [backend_spot_sku, h]
    split
    · split
      · split
        · rfl
        · simp
      · rfl
    · rfl

/-- C5 witness: the B-series record is rejected by both normalizers. -/
theorem C5_witness :
    _extract_sku_specs c5_sku "eastus" = none
    ∧ backend_spot_sku c5_sku "eastus" = none :=
  C5_b_series_rejected c5_sku "eastus" (by decide)

/-! ## Claim C6 — the spot-capability rule -/

/-- C6: `spot_capable` accepts exactly the claim's truthy encodings — the
boolean `True`, or a string equal to `"true"` or `"1"` up to case; every other
value of the (last-wins, lower-cased) `lowPriorityCapable` capability lookup,
including a missing one (`None`), is rejected; and a record that passes the
resource-type check but fails this rule is rejected by both normalizers. -/
theorem C6_spot_capability_rule :
    (∀ caps : List Capability,
      spot_capable caps = true
      ↔ (capsGet caps "lowprioritycapable" = PyVal.vBool true
         ∨ ∃ s, capsGet caps "lowprioritycapable" = PyVal.vStr s
             ∧ (lowerStr s = "true" ∨ lowerStr s = "1")))
    ∧ (∀ (sku : RawSku) (region : String),
        resource_type_ok sku = true → spot_capable sku.capabilities = false →
        _extract_sku_specs sku region = none ∧ backend_spot_sku sku region = none) := by
  constructor
  · intro caps
    have hexp : spot_capable caps
        = (decide (capsGet caps "lowprioritycapable" = PyVal.vBool true)
           || decide (lowerStr (pyStr (capsGet caps "lowprioritycapable")) = "true")
           || decide (lowerStr (pyStr (capsGet caps "lowprioritycapable")) = "1")) := by
      simp only [spot_capable]
    rw [hexp]
    cases h : capsGet caps "lowprioritycapable" with
    | vBool b =>
      cases b
      · constructor
        · intro habs
          exact absurd habs (by decide)
        · rintro (hc | ⟨s, hc, -⟩)
          · exact absurd hc (by decide)
          · exact PyVal.noConfusion hc
      · constructor
        · intro _
          exact Or.inl rfl
        · intro _
          decide
    | vStr s =>
      constructor
      · intro htrue
        rcases Bool.or_eq_true_iff.mp htrue with h1 | h1
        · rcases Bool.or_eq_true_iff.mp h1 with h2 | h2
          · exact PyVal.noConfusion (of_decide_eq_true h2)
          · exact Or.inr ⟨s, rfl, Or.inl (by simpa [pyStr] using of_decide_eq_true h2)⟩
        · exact Or.inr ⟨s, rfl, Or.inr (by simpa [pyStr] using of_decide_eq_true h1)⟩
      · rintro (hc | ⟨t, ht, hcase⟩)
        · exact PyVal.noConfusion hc
        · cases ht
          rcases hcase with h1 | h1 <;> simp [pyStr, h1]
    | vNone =>
      constructor
      · intro habs
        exact absurd habs (by decide)
      · rintro (hc | ⟨s, hc, -⟩) <;> exact PyVal.noConfusion hc
  · intro sku region hrt hsc
    constructor
    · simp [_extract_sku_specs, hrt, hsc]
    · simp [backend_spot_sku, hrt, hsc]

/-- C6 witness: the `"False"`-valued record passes the resource-type check but
is rejected at the spot-capability rule by both normalizers. -/
theorem C6_witness :
    _extract_sku_specs c6_sku "eastus" = none
    ∧ backend_spot_sku c6_sku "eastus" = none :=
  C6_spot_capability_rule.2 c6_sku "eastus" (by decide) (by decide)

/-! ## Claim C8 — determinism of `recommend_top_skus` -/

/-- C8: `recommend_top_skus` is a pure function of its inputs — two runs on
equal inputs produce identical outputs (scores, reasoning and ordering
included, since the whole scored records are compared). -/
theorem C8_deterministic (skus₁ skus₂ : List Sku)
    (criteria₁ criteria₂ : RecommendationCriteria) (limit₁ limit₂ : Nat)
    (hs : skus₁ = skus₂) (hc : criteria₁ = criteria₂) (hl : limit₁ = limit₂) :
    recommend_top_skus skus₁ criteria₁ limit₁ = recommend_top_skus skus₂ criteria₂ limit₂ := by
  subst hs; subst hc; subst hl; rfl

/-- C8 witness: two runs on the same concrete pool coincide. -/
theorem C8_witness :
    recommend_top_skus c8_pool {} 5 = recommend_top_skus c8_pool {} 5 :=
  C8_deterministic c8_pool c8_pool {} {} 5 5 rfl rfl rfl

/-! ## Claim C9 — unguarded division in the performance score -/

/-- C9: `_calculate_performance_score` divides `price / compute_units` with no
zero guard, so on a candidate with price present and `vcpus = memory_gb = 0`
it raises `ZeroDivisionError` (embedded as `none`) instead of returning a
score — and scoring the whole pool through `recommend_top_skus` raises too. -/
theorem C9_division_by_zero :
    c9_sku.price = some 1 ∧ c9_sku.vcpus = some 0 ∧ c9_sku.memory_gb = some 0
    ∧ compute_units 0 0 = 0
    ∧ _calculate_performance_score c9_sku [c9_sku] = none
    ∧ recommend_top_skus [c9_sku] {} 5 = none := by
  with_unfolding_all decide

/-! ## Claim C10 — returned candidates always have a non-empty zones list -/

lemma constraint_pass_zones (criteria : RecommendationCriteria) (sku : Sku)
    (h : constraint_pass criteria sku = true) : sku.zones ≠ [] := by
  intro hz
  simp [constraint_pass, hz] at h

lemma score_list_mem (all_skus : List Sku) (criteria : RecommendationCriteria) :
    ∀ (l : List Sku) (scored : List ScoredSku),
      score_list all_skus criteria l = some scored →
      ∀ s ∈ scored, ∃ x ∈ l, s.sku = x := by
  intro l
  induction l with
  | nil =>
    intro scored h s hs
    simp only [score_list] at h
    cases h
    cases hs
  | cons x rest ih =>
    intro scored h s hs
    simp only [score_list] at h
    cases h1 : score_one all_skus criteria x with
    | none => rw [h1] at h; cases h
    | some y =>
      rw [h1] at h
      cases h2 : score_list all_skus criteria rest with
      | none => rw [h2] at h; cases h
      | some ys =>
        rw [h2] at h
        cases h
        rcases List.mem_cons.mp hs with rfl | hmem
        · refine ⟨x, List.mem_cons_self x rest, ?_⟩
          unfold score_one at h1
          cases h3 : _calculate_sku_score x all_skus criteria with
          | none => rw [h3] at h1; cases h1
          | some r =>
            rw [h3] at h1
            simp only [Option.map] at h1
            cases h1
            rfl
        · obtain ⟨z, hz, hsz⟩ := ih ys h2 s hmem
          exact ⟨z, List.mem_cons_of_mem x hz, hsz⟩

/-- C10: every candidate returned by `recommend_top_skus` — under *every*
criteria, including `min_availability_zones ≤ 0` — has a non-empty zones
list, because the constraint filter unconditionally drops zoneless
candidates first. -/
theorem C10_zones_nonempty (skus : List Sku) (criteria : RecommendationCriteria)
    (limit : Nat) (out : List ScoredSku) (s : ScoredSku)
    (hrec : recommend_top_skus skus criteria limit = some out) (hs : s ∈ out) :
    s.sku.zones ≠ [] := by
  by_cases hsk : skus = []
  · subst hsk
    have : out = [] := by simpa [recommend_top_skus] using hrec
    subst this
    cases hs
  · by_cases hfl : _apply_constraints skus criteria = []
    · have : out = [] := by simpa [recommend_top_skus, hsk, hfl] using hrec
      subst this
      cases hs
    · have hform : recommend_top_skus skus criteria limit
          = (scored_pool skus criteria).map
              (fun sc => (sc.mergeSort score_desc).take limit) := by
        simp [recommend_top_skus, hsk, hfl]
      rw [hform] at hrec
      cases hsp : scored_pool skus criteria with
      | none => rw [hsp] at hrec; cases hrec
      | some scored =>
        rw [hsp] at hrec
        simp only [Option.map] at hrec
        cases hrec
        have hs1 : s ∈ scored.mergeSort score_desc :=
          List.mem_of_mem_take hs
        have hs2 : s ∈ scored := List.mem_mergeSort.mp hs1
        obtain ⟨x, hx, hsx⟩ :=
          score_list_mem (_apply_constraints skus criteria) criteria
            (_apply_constraints skus criteria) scored hsp s hs2
        have hpass : constraint_pass criteria x = true :=
          (List.mem_filter.mp hx).2
        rw [hsx]
        exact constraint_pass_zones criteria x hpass

/-- C10 witness: the head of the concrete output has a non-empty zones list. -/
theorem C10_witness : c10_out.headI.sku.zones ≠ [] :=
  C10_zones_nonempty [c10_sku] c10_crit 5 c10_out c10_out.headI
    (by with_unfolding_all rfl) (by with_unfolding_all decide)

/-! ## Claim C7 — the dedupe/merge phase of `filter_and_shape_items` -/

lemma merge_dup_vmSku (e it : Item) : (merge_dup e it).vmSku = e.vmSku := rfl

lemma insert_item_map_vmSku (acc : List Item) (it : Item) :
    (insert_item acc it).map (fun x => x.vmSku)
    = if it.vmSku ∈ acc.map (fun x => x.vmSku) then acc.map (fun x => x.vmSku)
      else acc.map (fun x => x.vmSku) ++ [it.vmSku] := by
  induction acc with
  | nil => simp [insert_item]
  | cons e rest ih =>
    by_cases h : e.vmSku = it.vmSku
    · simp [insert_item, h, merge_dup_vmSku]
    · by_cases hm : it.vmSku ∈ rest.map (fun x => x.vmSku)
      · simp [insert_item, h, ih, hm, Ne.symm h]
      · simp [insert_item, h, ih, hm, Ne.symm h]

lemma insert_item_nodup (acc : List Item) (it : Item)
    (h : (acc.map (fun x => x.vmSku)).Nodup) :
    ((insert_item acc it).map (fun x => x.vmSku)).Nodup := by
  rw [insert_item_map_vmSku]
  split
  · exact h
  · next hnot => simp [List.nodup_append, h, hnot]

lemma filter_name_nil_of_not_mem (rest : List Item) (n : String)
    (h : (some n : Option String) ∉ rest.map (fun x => x.vmSku)) :
    rest.filter (name_key n) = [] := by
  rw [List.filter_eq_nil_iff]
  intro a ha hk
  have hav : a.vmSku = some n := of_decide_eq_true hk
  exact h (hav ▸ List.mem_map_of_mem (fun x => x.vmSku) ha)

lemma filter_name_of_nodup (acc : List Item) (n : String)
    (h : (acc.map (fun x => x.vmSku)).Nodup) :
    acc.filter (name_key n) = []
    ∨ ∃ e, acc.filter (name_key n) = [e] ∧ e.vmSku = some n := by
  induction acc with
  | nil => exact Or.inl rfl
  | cons e rest ih =>
    rw [List.map_cons, List.nodup_cons] at h
    obtain ⟨hnin, hnd⟩ := h
    by_cases hk : name_key n e
    · right
      have hev : e.vmSku = some n := of_decide_eq_true hk
      have hrest : rest.filter (name_key n) = [] :=
        filter_name_nil_of_not_mem rest n (hev ▸ hnin)
      exact ⟨e, by simp [List.filter_cons, hk, hrest], hev⟩
    · rw [List.filter_cons, if_neg (by simpa using hk)]
      exact ih hnd

lemma insert_item_filter (acc : List Item) (it : Item) (n : String)
    (hnd : (acc.map (fun x => x.vmSku)).Nodup) :
    (insert_item acc it).filter (name_key n)
    = if name_key n it then
        match acc.filter (name_key n) with
        | [] => [it]
        | e :: _ => [merge_dup e it]
      else acc.filter (name_key n) := by
  induction acc with
  | nil =>
    by_cases hk : name_key n it <;>
      simp [insert_item, List.filter_cons, hk]
  | cons e rest ih =>
    rw [List.map_cons, List.nodup_cons] at hnd
    obtain ⟨hnin, hnd'⟩ := hnd
    by_cases heq : e.vmSku = it.vmSku
    · -- merged in place at the head entry
      have hke : name_key n e = name_key n it := by
        simp [name_key, heq]
      by_cases hk : name_key n it
      · have hket : name_key n e = true := hke.trans hk
        have hev : e.vmSku = some n := of_decide_eq_true hket
        have hrest : rest.filter (name_key n) = [] :=
          filter_name_nil_of_not_mem rest n (hev ▸ hnin)
        have hkm : name_key n (merge_dup e it) = true := by
          show decide ((merge_dup e it).vmSku = some n) = true
          rw [merge_dup_vmSku]
          exact hket
        simp [insert_item, heq, List.filter_cons, hkm, hket, hrest, hk]
      · have hkif : name_key n it = false := by simpa using hk
        have hkef : name_key n e = false := hke.trans hkif
        have hkm : name_key n (merge_dup e it) = false := by
          show decide ((merge_dup e it).vmSku = some n) = false
          rw [merge_dup_vmSku]
          exact hkef
        simp [insert_item, heq, List.filter_cons, hkm, hkef, hkif]
    · -- recursive insertion past the head entry
      by_cases hk : name_key n it
      · have hkef : name_key n e = false := by
          cases hkeb : name_key n e
          · rfl
          · exact absurd ((of_decide_eq_true hkeb).trans (of_decide_eq_true hk).symm) heq
        simp [insert_item, heq, List.filter_cons, hkef, ih hnd', hk]
      · by_cases hke : name_key n e
        · simp [insert_item, heq, List.filter_cons, hke, ih hnd', hk]
        · simp [insert_item, heq, List.filter_cons, hke, ih hnd', hk]

lemma foldl_insert_filter : ∀ (l acc : List Item) (n : String),
    (acc.map (fun x => x.vmSku)).Nodup →
    ((l.foldl insert_item acc).filter (name_key n)
      = match acc.filter (name_key n), l.filter (name_key n) with
        | [], [] => []
        | [], x :: xs => [fold_merge x xs]
        | e :: _, ys => [fold_merge e ys]) := by
  intro l
  induction l with
  | nil =>
    intro acc n hnd
    rcases filter_name_of_nodup acc n hnd with h | ⟨e, he, -⟩
    · rw [List.foldl_nil, h, List.filter_nil]
    · rw [List.foldl_nil, he, List.filter_nil]
      rfl
  | cons it rest ih =>
    intro acc n hnd
    rw [List.foldl_cons,
      ih (insert_item acc it) n (insert_item_nodup acc it hnd),
      insert_item_filter acc it n hnd]
    by_cases hk : name_key n it
    · rw [if_pos hk]
      rcases filter_name_of_nodup acc n hnd with h | ⟨e, he, -⟩
      · rw [h, List.filter_cons, if_pos (by simpa using hk)]
      · rw [he, List.filter_cons, if_pos (by simpa using hk)]
        rfl
    · rw [if_neg (by simpa using hk), List.filter_cons,
        if_neg (by simpa using hk)]

lemma foldl_insert_mem_vmSku : ∀ (l acc : List Item) (nm : Option String),
    (nm ∈ (l.foldl insert_item acc).map (fun x => x.vmSku)
      ↔ nm ∈ acc.map (fun x => x.vmSku) ∨ nm ∈ l.map (fun x => x.vmSku)) := by
  intro l
  induction l with
  | nil =>
    intro acc nm
    simp
  | cons it rest ih =>
    intro acc nm
    rw [List.foldl_cons, ih, insert_item_map_vmSku]
    split
    · next hmem =>
      simp only [List.map_cons, List.mem_cons]
      constructor
      · rintro (h | h)
        · exact Or.inl h
        · exact Or.inr (Or.inr h)
      · rintro (h | h | h)
        · exact Or.inl h
        · exact Or.inl (h ▸ hmem)
        · exact Or.inr h
    · simp only [List.mem_append, List.mem_singleton, List.map_cons, List.mem_cons]
      tauto

lemma foldl_insert_nodup : ∀ (l acc : List Item),
    (acc.map (fun x => x.vmSku)).Nodup →
    ((l.foldl insert_item acc).map (fun x => x.vmSku)).Nodup := by
  intro l
  induction l with
  | nil => intro acc h; exact h
  | cons it rest ih =>
    intro acc h
    rw [List.foldl_cons]
    exact ih _ (insert_item_nodup acc it h)

lemma mem_sorted_union (a b : List String) (z : String) :
    z ∈ sorted_union a b ↔ z ∈ a ∨ z ∈ b := by
  simp [sorted_union, List.mem_mergeSort, List.mem_dedup, List.mem_append]

lemma fold_merge_zones (xs : List Item) : ∀ (x : Item) (z : String),
    (z ∈ (fold_merge x xs).zones ↔ z ∈ x.zones ∨ ∃ it ∈ xs, z ∈ it.zones) := by
  induction xs with
  | nil =>
    intro x z
    simp [fold_merge]
  | cons y ys ih =>
    intro x z
    have hstep : fold_merge x (y :: ys) = fold_merge (merge_dup x y) ys := rfl
    rw [hstep, ih]
    have hz : (merge_dup x y).zones = sorted_union x.zones y.zones := rfl
    rw [hz, mem_sorted_union]
    simp only [List.mem_cons]
    constructor
    · rintro ((h | h) | ⟨it, hit, h⟩)
      · exact Or.inl h
      · exact Or.inr ⟨y, Or.inl rfl, h⟩
      · exact Or.inr ⟨it, Or.inr hit, h⟩
    · rintro (h | ⟨it, hit | hit, h⟩)
      · exact Or.inl (Or.inl h)
      · exact Or.inl (Or.inr (hit ▸ h))
      · exact Or.inr ⟨it, hit, h⟩

lemma fold_merge_vCPUs (xs : List Item) : ∀ x : Item,
    ((fold_merge x xs).vCPUs
      = match (x :: xs).find? (fun it => truthy_int it.vCPUs) with
        | some it => it.vCPUs
        | none => x.vCPUs) := by
  induction xs with
  | nil =>
    intro x
    simp only [fold_merge, List.foldl_nil, List.find?_cons, List.find?_nil]
    cases truthy_int x.vCPUs <;> rfl
  | cons y ys ih =>
    intro x
    have hstep : fold_merge x (y :: ys) = fold_merge (merge_dup x y) ys := rfl
    rw [hstep, ih]
    simp only [List.find?_cons]
    cases hx : truthy_int x.vCPUs
    · cases hy : truthy_int y.vCPUs
      · have hm : (merge_dup x y).vCPUs = x.vCPUs := by
          simp [merge_dup, hx, hy]
        simp only [hm, hx, hy]
      · have hm : (merge_dup x y).vCPUs = y.vCPUs := by
          simp [merge_dup, hx, hy]
        simp only [hm, hx, hy]
    · have hm : (merge_dup x y).vCPUs = x.vCPUs := by
        simp [merge_dup, hx]
      simp only [hm, hx]

lemma fold_merge_memoryGB (xs : List Item) : ∀ x : Item,
    ((fold_merge x xs).memoryGB
      = match (x :: xs).find? (fun it => truthy_rat it.memoryGB) with
        | some it => it.memoryGB
        | none => x.memoryGB) := by
  induction xs with
  | nil =>
    intro x
    simp only [fold_merge, List.foldl_nil, List.find?_cons, List.find?_nil]
    cases truthy_rat x.memoryGB <;> rfl
  | cons y ys ih =>
    intro x
    have hstep : fold_merge x (y :: ys) = fold_merge (merge_dup x y) ys := rfl
    rw [hstep, ih]
    simp only [List.find?_cons]
    cases hx : truthy_rat x.memoryGB
    · cases hy : truthy_rat y.memoryGB
      · have hm : (merge_dup x y).memoryGB = x.memoryGB := by
          simp [merge_dup, hx, hy]
        simp only [hm, hx, hy]
      · have hm : (merge_dup x y).memoryGB = y.memoryGB := by
          simp [merge_dup, hx, hy]
        simp only [hm, hx, hy]
    · have hm : (merge_dup x y).memoryGB = x.memoryGB := by
        simp [merge_dup, hx]
      simp only [hm, hx]

lemma fold_merge_scalars (xs : List Item) : ∀ x : Item,
    (fold_merge x xs).vmSku = x.vmSku
    ∧ (fold_merge x xs).gpu = x.gpu
    ∧ (fold_merge x xs).supportsSpot = x.supportsSpot
    ∧ (fold_merge x xs).vmSeries = x.vmSeries := by
  induction xs with
  | nil => intro x; exact ⟨rfl, rfl, rfl, rfl⟩
  | cons y ys ih =>
    intro x
    have hstep : fold_merge x (y :: ys) = fold_merge (merge_dup x y) ys := rfl
    rw [hstep]
    exact ih (merge_dup x y)

/-- C7: the clean + dedupe phase of `filter_and_shape_items` produces one
merged record per distinct non-empty name — records with a missing/empty name
are dropped; per name, the merged record's zone set is the union of the zone
sets of all of that name's occurrences; its `vCPUs` is the first-seen value
unless that is null/zero and a later duplicate carries a non-null non-zero
value (which is then adopted; same rule for `memoryGB`); and every other
scalar field keeps the first-seen value. -/
theorem C7_dedupe_merge (items : List Item) :
    ((dedupe_pool items).map (fun x => x.vmSku)).Nodup
    ∧ (∀ nm : Option String,
        nm ∈ (dedupe_pool items).map (fun x => x.vmSku)
        ↔ nm ∈ (clean_items items).map (fun x => x.vmSku))
    ∧ (∀ r ∈ dedupe_pool items, truthy_name r.vmSku = true)
    ∧ (∀ n : String, (clean_items items).filter (name_key n) = [] →
        ∀ r ∈ dedupe_pool items, r.vmSku ≠ some n)
    ∧ (∀ (n : String) (it0 : Item) (rest : List Item),
        (clean_items items).filter (name_key n) = it0 :: rest →
        ∃ r, r ∈ dedupe_pool items ∧ r.vmSku = some n
          ∧ (∀ z : String, z ∈ r.zones ↔ z ∈ it0.zones ∨ ∃ it ∈ rest, z ∈ it.zones)
          ∧ (r.vCPUs = match (it0 :: rest).find? (fun it => truthy_int it.vCPUs) with
              | some it => it.vCPUs
              | none => it0.vCPUs)
          ∧ (r.memoryGB = match (it0 :: rest).find? (fun it => truthy_rat it.memoryGB) with
              | some it => it.memoryGB
              | none => it0.memoryGB)
          ∧ r.gpu = it0.gpu ∧ r.supportsSpot = it0.supportsSpot
          ∧ r.vmSeries = it0.vmSeries) := by
  have hnil : (([] : List Item).map (fun x => x.vmSku)).Nodup := List.nodup_nil
  refine ⟨foldl_insert_nodup _ [] hnil, ?_, ?_, ?_, ?_⟩
  · intro nm
    rw [dedupe_pool, foldl_insert_mem_vmSku]
    simp
  · intro r hr
    have h1 : r.vmSku ∈ (dedupe_pool items).map (fun x => x.vmSku) :=
      List.mem_map_of_mem _ hr
    have h2 : r.vmSku ∈ (clean_items items).map (fun x => x.vmSku) := by
      rw [dedupe_pool] at h1
      rcases (foldl_insert_mem_vmSku (clean_items items) [] r.vmSku).mp h1 with h | h
      · simp at h
      · exact h
    obtain ⟨it, hit, hnm⟩ := List.mem_map.mp h2
    have htr : truthy_name it.vmSku = true := (List.mem_filter.mp hit).2
    rw [← hnm]
    exact htr
  · intro n hempty r hr hname
    have := foldl_insert_filter (clean_items items) [] n hnil
    rw [List.filter_nil, hempty] at this
    have hrf : r ∈ (dedupe_pool items).filter (name_key n) :=
      List.mem_filter.mpr ⟨hr, by simp [name_key, hname]⟩
    rw [dedupe_pool] at hrf
    rw [this] at hrf
    cases hrf
  · intro n it0 rest hfilter
    have hkey := foldl_insert_filter (clean_items items) [] n hnil
    rw [List.filter_nil, hfilter] at hkey
    set r := fold_merge it0 rest with hr
    have hrmem : r ∈ (dedupe_pool items).filter (name_key n) := by
      rw [dedupe_pool, hkey]
      exact List.mem_singleton.mpr rfl
    have hrpool : r ∈ dedupe_pool items := (List.mem_filter.mp hrmem).1
    have hrname : r.vmSku = some n := of_decide_eq_true (List.mem_filter.mp hrmem).2
    exact ⟨r, hrpool, hrname, fun z => fold_merge_zones rest it0 z,
      fold_merge_vCPUs rest it0, fold_merge_memoryGB rest it0,
      (fold_merge_scalars rest it0).2.1, (fold_merge_scalars rest it0).2.2.1,
      (fold_merge_scalars rest it0).2.2.2⟩

/-- C7 witness: on the concrete item list, the two `"A"` records merge into
one pool record whose zone set is the union `{"1", "2"}`, whose `vCPUs`
backfills the duplicate's `4` (the first-seen value was null), and whose
`memoryGB` keeps the first-seen `8`. -/
theorem C7_witness :
    ∃ r, r ∈ dedupe_pool c7_items ∧ r.vmSku = some "A"
      ∧ ("1" ∈ r.zones ∧ "2" ∈ r.zones)
      ∧ r.vCPUs = some 4 ∧ r.memoryGB = some 8 := by
  obtain ⟨r, hmem, hname, hz, hv, hm, -, -, -⟩ :=
    (C7_dedupe_merge c7_items).2.2.2.2 "A"
      { vmSku := some "A", zones := ["2"], memoryGB := some 8, gpu := false }
      [{ vmSku := some "A", vCPUs := some 4, zones := ["1"] }]
      (by with_unfolding_all decide)
  refine ⟨r, hmem, hname, ⟨?_, ?_⟩, ?_, ?_⟩
  · exact (hz "1").mpr (Or.inr ⟨_, List.mem_singleton.mpr rfl, by decide⟩)
  · exact (hz "2").mpr (Or.inl (by decide))
  · rw [hv]
    with_unfolding_all decide
  · rw [hm]
    with_unfolding_all decide

end SpotFinder
